import Mathlib

/-!
Shallow embedding of the packet-queue / seek / resampling core of the
sfeMovie media engine (src/Stream.cpp, src/AudioStream.cpp, with the
Demuxer collaborator declared in src/Demuxer.hpp).

Conventions used throughout:
* Machine time (`sf::Time`) is modelled as an `Int` number of microseconds;
  the `double`/`float` rational arithmetic of the timestamp conversions is
  idealized as exact rational arithmetic, with the integer truncations
  performed exactly where the C++ code casts to an integer type.
* C++ integer division and `%` truncate toward zero; where the operands are
  known nonnegative at the modelled program point all division conventions
  agree and we use `Int.tdiv` / `Int.tmod` to mirror the C++ semantics.
* `CHECK(cond, msg)` throws `std::runtime_error(msg)` when `cond` is false
  (a fatal, non-recoverable abort); it is modelled as an error outcome
  carrying the message.
* `av_packet_unref`/freeing a packet is modelled by appending the packet to
  a `released` log, so "freed exactly once" is expressible as list equality.
-/

namespace SfeMovie

/-- `sf::SoundStream::Status`, the audio sink's observable status. -/
inductive SinkStatus
  | Stopped
  | Paused
  | Playing
deriving DecidableEq, Repr

/-- `sfe::Status`, the stream state machine's status. -/
inductive Status
  | Stopped
  | Paused
  | Playing
deriving DecidableEq, Repr

/-- An `AVPacket`, restricted to the fields this code reads: payload pointer
nullness and size, decode/presentation timestamps and duration in stream
time-base ticks (`none` models `AV_NOPTS_VALUE`), and the stream index. -/
structure Packet where
  dataIsNull : Bool := false
  size : Int := 0
  dts : Option Int := none
  pts : Option Int := none
  duration : Int := 0
  streamIndex : Int := 0
deriving DecidableEq, Repr

/-- Per-stream container metadata read by `Stream`: the stream `time_base`
(num/den), the guessed frame rate (num/den, `av_guess_frame_rate`), and the
stream `start_time` (`none` models `AV_NOPTS_VALUE`). -/
structure StreamInfo where
  tbNum : Int := 1
  tbDen : Int := 1000
  frNum : Int := 25
  frDen : Int := 1
  startTime : Option Int := none
deriving DecidableEq, Repr

/-- Resampler state of `AudioStream` (`m_dstNbSamples`, `m_maxDstNbSamples`),
plus a log of the capacities installed by each reallocation of the output
buffer (`av_samples_alloc` in `resampleFrame`). `initResampler` sets both
counters to 1024. -/
structure Resampler where
  dstNbSamples : Int := 1024
  maxDstNbSamples : Int := 1024
  reallocLog : List Int := []
deriving DecidableEq, Repr

/-- One outcome of a `decodePacket` call, i.e. of the
`avcodec_send_packet` / `avcodec_receive_frame` pair: the send fails, the
receive fails, or a frame is produced.  A produced frame carries the data
`resampleFrame` reads from it and from the resampler: the resampler's
current delay (`swr_get_delay`), the frame's `nb_samples` and
`sample_rate`, and the per-channel sample count returned by `swr_convert`. -/
inductive DecodeOutcome
  | sendFail
  | receiveFail
  | frame (delay nbSamples sampleRate convErr : Int)
deriving DecidableEq, Repr

/-- The state of one `AudioStream` (including its `Stream` base): the packet
queue, the demuxer collaborator (modelled from the spec, see
`requestMoreData`), codec/format facts, the seek residue `m_extraAudioTime`,
and observation logs (released packets, decoder submissions, logged
warnings). -/
structure AState where
  packetList : List Packet := []
  pendingFeed : List Packet := []
  refillCalls : Nat := 0
  passive : Bool := false
  codecDelay : Bool := false
  streamID : Int := 0
  info : StreamInfo := {}
  sampleRatePerChannel : Int := 48000
  extraAudioTime : Int := 0
  status : Status := .Stopped
  sinkStatus : SinkStatus := .Stopped
  resampler : Resampler := {}
  decoderScript : List DecodeOutcome := []
  submitted : List Packet := []
  released : List Packet := []
  inaccuracyWarned : Bool := false
  flushWhilePlayingWarned : Bool := false
  decoderFlushed : Bool := false
deriving DecidableEq, Repr

/-- `getStereoChannelCount()`: `AV_CHANNEL_LAYOUT_STEREO` has 2 channels. -/
def stereoChannelCount : Int := 2

/-- Modelled from the spec: `Demuxer::requestMoreData` (only declared in
src/Demuxer.hpp; Demuxer.cpp is not among the sources).  Per spec §4.1 it
drains pending packets for the starving stream and/or reads packets from the
container until one for this stream is obtained or EOF, pushing them into
the stream's queue (`pushEncodedData`, i.e. append).  The data it would
deliver is modelled as the `pendingFeed` list, appended in order and
consumed; each call is counted in `refillCalls`. -/
def requestMoreData (s : AState) : AState :=
  { s with packetList := s.packetList ++ s.pendingFeed
           pendingFeed := []
           refillCalls := s.refillCalls + 1 }

/-- `Stream::pushEncodedData`: append to the queue. -/
def pushEncodedData (s : AState) (p : Packet) : AState :=
  { s with packetList := s.packetList ++ [p] }

/-- `Stream::prependEncodedData`: front-insert into the queue. -/
def prependEncodedData (s : AState) (p : Packet) : AState :=
  { s with packetList := p :: s.packetList }

/-- The zero-length flush packet synthesized by `Stream::popEncodedData`
(`av_init_packet`, then `data = nullptr`, `size = 0`). -/
def flushPacket : Packet :=
  { dataIsNull := true, size := 0, dts := none, pts := none
    duration := 0, streamIndex := 0 }

/-- `Stream::popEncodedData`: if the queue is empty and the stream is not
passive, request a refill from the data source; then pop the front packet if
any; otherwise, if the codec declares internal delay
(`AV_CODEC_CAP_DELAY`), synthesize and return one flush packet; otherwise
return no packet. -/
def popEncodedData (s : AState) : Option Packet × AState :=
  let s := if s.packetList.isEmpty && !s.passive then requestMoreData s else s
  match s.packetList with
  | p :: rest => (some p, { s with packetList := rest })
  | [] => if s.codecDelay then (some flushPacket, s) else (none, s)

/-- The timestamp `Stream::computeEncodedPosition` picks for the front
packet: `dts` if set, else `pts - start_time`, else the `-424242`
sentinel. -/
def packetTimestamp (info : StreamInfo) (p : Packet) : Int :=
  match p.dts with
  | some dts => dts
  | none =>
    match p.pts with
    | some pts => pts - (match info.startTime with | some st => st | none => 0)
    | none => -424242

/-- The position `Stream::computeEncodedPosition` computes for a packet, in
microseconds: the timestamp times the stream time base, converted by
`sf::milliseconds(1000 * av_q2d(seconds))` — i.e. truncated to a whole
number of milliseconds. -/
def encodedPositionOf (info : StreamInfo) (p : Packet) : Int :=
  1000 * Int.tdiv (1000 * packetTimestamp info p * info.tbNum) info.tbDen

/-- `Stream::computeEncodedPosition`: after a refill attempt when the queue
is empty (and the stream is not passive), read the front packet's position;
fails if the queue is still empty. -/
def computeEncodedPosition (s : AState) : Option Int × AState :=
  let s := if s.packetList.isEmpty && !s.passive then requestMoreData s else s
  match s.packetList with
  | p :: _ => (some (encodedPositionOf s.info p), s)
  | [] => (none, s)

/-- The duration `Stream::packetDuration` computes, in microseconds: the
packet's declared duration times the stream time base
(`sf::seconds(av_q2d(...))`, truncated at the microsecond), or, if the
declared duration is zero, the inverse of the container's guessed frame
rate. -/
def packetDurationUs (info : StreamInfo) (p : Packet) : Int :=
  if p.duration ≠ 0 then
    Int.tdiv (p.duration * info.tbNum * 1000000) info.tbDen
  else
    Int.tdiv (1000000 * info.frDen) info.frNum

/-- `Stream::packetDuration`, including its CHECK that the packet belongs to
this stream. -/
def packetDuration (s : AState) (p : Packet) : Except String Int :=
  if p.streamIndex ≠ s.streamID then
    .error "Asking for duration of a packet for a different stream!"
  else
    .ok (packetDurationUs s.info p)

/-- Outcome of `AudioStream::fastForward`. -/
inductive FFOutcome
  | ok
  | noPosition
  | endOfStream
  | checkFailed (msg : String)
  | outOfFuel
deriving DecidableEq, Repr

/-- Result of `AudioStream::fastForward`: the outcome together with the
stream state when the function returns (or aborts). -/
structure FFResult where
  outcome : FFOutcome
  st : AState
deriving DecidableEq, Repr

/-- The do-while loop of `AudioStream::fastForward`, with fuel bounding the
number of iterations (the C++ loop can fail to terminate only for packets of
negative modelled duration).  Each iteration: compute the front packet's
position (failure → return false), pop it (no packet → return false), take
its duration, then the three-way test against the target; the loop continues
while `currentPosition + pktDuration <= targetPosition`. -/
def fastForwardAux : Nat → Int → AState → FFResult
  | 0, _, s => ⟨.outOfFuel, s⟩
  | fuel+1, target, s0 =>
    match computeEncodedPosition s0 with
    | (none, s) => ⟨.noPosition, s⟩
    | (some pos, s) =>
      match popEncodedData s with
      | (none, s) => ⟨.endOfStream, s⟩
      | (some pkt, s) =>
        match packetDuration s pkt with
        | .error m => ⟨.checkFailed m, s⟩
        | .ok dur =>
          if pos > target then
            let s := if pos - target > 1 then { s with inaccuracyWarned := true } else s
            let s := { s with extraAudioTime := 0 }
            let s := prependEncodedData s pkt
            if pos + dur ≤ target then fastForwardAux fuel target s else ⟨.ok, s⟩
          else if pos + dur > target then
            let s := prependEncodedData s pkt
            let s := { s with extraAudioTime := target - pos }
            if ¬ s.extraAudioTime > 0 then ⟨.checkFailed "inconcistency error", s⟩
            else if ¬ s.extraAudioTime ≤ dur then
              ⟨.checkFailed "Should have discarded a full packet", s⟩
            else if pos + dur ≤ target then fastForwardAux fuel target s else ⟨.ok, s⟩
          else
            let s := { s with released := s.released ++ [pkt] }
            if pos + dur ≤ target then fastForwardAux fuel target s else ⟨.ok, s⟩

/-- `AudioStream::fastForward(targetPosition)`, with enough fuel for every
queued or deliverable packet to be examined once. -/
def fastForward (target : Int) (s : AState) : FFResult :=
  fastForwardAux (s.packetList.length + s.pendingFeed.length + 1) target s

/-- `Stream::flushBuffers`: warn if the stream status is `Playing`, flush
the decoder (`avcodec_flush_buffers`), then unref every queued packet and
empty the queue. -/
def streamFlushBuffers (s : AState) : AState :=
  let s := if s.status = .Playing then { s with flushWhilePlayingWarned := true } else s
  let s := { s with decoderFlushed := true }
  { s with released := s.released ++ s.packetList, packetList := [] }

/-- `AudioStream::flushBuffers`: CHECK (fatal) that the audio sink is not
playing; stop the sink if it is not already stopped; zero
`m_extraAudioTime`; then `Stream::flushBuffers`. -/
def audioFlushBuffers (s : AState) : Except String AState :=
  if s.sinkStatus = .Playing then
    .error "Trying to flush while audio is playing, this will introduce an audio glitch!"
  else
    let s := if s.sinkStatus ≠ .Stopped then { s with sinkStatus := .Stopped } else s
    let s := { s with extraAudioTime := 0 }
    .ok (streamFlushBuffers s)

/-- `av_rescale_rnd(a, b, c, AV_ROUND_UP)`: `a * b / c`, rounded up (the
code only calls it with `b = c = frame->sample_rate`). -/
def avRescaleRndUp (a b c : Int) : Int :=
  -(Int.fdiv (-(a * b)) c)

/-- `AudioStream::timeToSamples(time)`: microseconds to an output-domain
sample count, rounded down to a whole number of sample-frames (a multiple of
the stereo channel count) so interleaved left/right samples are never split;
its CHECK rejects a negative intermediate result. -/
def timeToSamples (rate timeUs : Int) : Except String Int :=
  let samplesPerSecond := rate * stereoChannelCount
  let samples := Int.tdiv (samplesPerSecond * timeUs) 1000000
  if ¬ samples ≥ 0 then .error "computation overflow"
  else if Int.tmod samples stereoChannelCount ≠ 0 then
    .ok (samples - Int.tmod samples stereoChannelCount)
  else .ok samples

/-- `AudioStream::samplesToTime(nbSamples)`: an output-domain sample count
to microseconds; its CHECK rejects a negative result. -/
def samplesToTime (rate nbSamples : Int) : Except String Int :=
  let samplesPerChannel := Int.tdiv nbSamples stereoChannelCount
  let microseconds := Int.tdiv (1000000 * samplesPerChannel) rate
  if ¬ microseconds ≥ 0 then .error "computation overflow"
  else .ok microseconds

/-- `AudioStream::resampleFrame(frame)`: compute the required output sample
count from the resampler delay plus the frame's samples (rate-rescaled,
rounded up); if it exceeds the current buffer capacity, reallocate the
output buffer at the new capacity and record it as the new maximum; convert
(`swr_convert`, whose per-channel output count `convErr` is an oracle of the
frame; negative means failure, a fatal CHECK); return the produced
interleaved sample count `dst_bufsize / BytesPerSample = 2 * convErr`. -/
def resampleFrame (r : Resampler) (delay nbSamples sampleRate convErr : Int) :
    Resampler × Except String Int :=
  let required := avRescaleRndUp (delay + nbSamples) sampleRate sampleRate
  let r := { r with dstNbSamples := required }
  let r := if required > r.maxDstNbSamples then
      { r with maxDstNbSamples := required, reallocLog := r.reallocLog ++ [required] }
    else r
  if ¬ convErr ≥ 0 then (r, .error "AudioStream::resampleFrame() - swr_convert() error")
  else (r, .ok (stereoChannelCount * convErr))

/-- Repeated `resampleFrame` calls: the resampler state after each call in
the sequence (the produced samples are consumed by `onGetData`). -/
def resampleSeq (r : Resampler) (calls : List (Int × Int × Int × Int)) : Resampler :=
  calls.foldl (fun r c => (resampleFrame r c.1 c.2.1 c.2.2.1 c.2.2.2).1) r

/-- `AudioStream::decodePacket(packet, frame, gotFrame)`: submit the packet
(`avcodec_send_packet`) — always logged in `submitted` — and consume the
decoder's next scripted outcome.  A failing send or receive returns
`needsMoreDecoding = true` with no frame; a produced frame returns
`needsMoreDecoding = false`.  An exhausted script behaves as a failing
send. -/
def decodePacket (s : AState) (pkt : Packet) :
    AState × Bool × Option (Int × Int × Int × Int) :=
  let s := { s with submitted := s.submitted ++ [pkt] }
  match s.decoderScript with
  | [] => (s, true, none)
  | o :: rest =>
    let s := { s with decoderScript := rest }
    match o with
    | .sendFail => (s, true, none)
    | .receiveFail => (s, true, none)
    | .frame d n sr e => (s, false, some (d, n, sr, e))

/-- The in-progress state of one `AudioStream::onGetData` call: the stream
state, the chunk fill count `data.sampleCount`, and the log of `memcpy`
writes into the output buffer as (offset, length) pairs. -/
structure GDState where
  st : AState
  count : Int
  writes : List (Int × Int)
deriving DecidableEq, Repr

/-- Result of (part of) an `onGetData` call: normal return (carrying the
C++ return value `packet != nullptr`), a fatal CHECK, or fuel exhaustion
(the C++ loop does not terminate on a persistently failing decoder). -/
inductive GDResult
  | ok (hadPacket : Bool) (g : GDState)
  | checkFailed (msg : String) (g : GDState)
  | outOfFuel (g : GDState)
deriving DecidableEq, Repr

/-- The state carried by a `GDResult`, whatever the outcome. -/
def GDResult.state : GDResult → GDState
  | .ok _ g => g
  | .checkFailed _ g => g
  | .outOfFuel g => g

/-- The `if (gotFrame)` body of `AudioStream::onGetData`: resample the
frame, CHECK the produced count is positive and that the chunk would stay
strictly below two seconds of samples, discard pending `extraAudioTime`
(clamped to the produced block; residues smaller than one sample-frame are
cleared; the cross-check ratio CHECK is integer arithmetic in C++), then
copy the remaining samples into the chunk.  Returns the new state plus the
failed CHECK's message, if any. -/
def processFrame (g : GDState) (delay nbSamples sampleRate convErr : Int) :
    GDState × Option String :=
  let rr := resampleFrame g.st.resampler delay nbSamples sampleRate convErr
  let g := { g with st := { g.st with resampler := rr.1 } }
  match rr.2 with
  | .error m => (g, some m)
  | .ok samplesCount =>
    if ¬ samplesCount > 0 then
      (g, some "AudioStream::onGetData() - resampleFrame() error")
    else
      match samplesToTime g.st.sampleRatePerChannel (g.count + samplesCount) with
      | .error m => (g, some m)
      | .ok us =>
        if ¬ us < 2000000 then (g, some "AudioStream::onGetData() - Going to overflow!!")
        else
          let afterDiscard : (AState × Int) ⊕ String :=
            if g.st.extraAudioTime > 0 then
              match timeToSamples g.st.sampleRatePerChannel g.st.extraAudioTime with
              | .error m => .inr m
              | .ok d0 =>
                let toDiscard := if d0 > samplesCount then samplesCount else d0
                if toDiscard < stereoChannelCount ∧ samplesCount > 0 then
                  .inl ({ g.st with extraAudioTime := 0 }, samplesCount)
                else
                  match samplesToTime g.st.sampleRatePerChannel samplesCount with
                  | .error m => .inr m
                  | .ok blockUs =>
                    if ¬ (Int.tdiv toDiscard (max samplesCount toDiscard)
                           - Int.tdiv g.st.extraAudioTime blockUs ≤ 0) then
                      .inr "It looks like an invalid amount of audio samples was discarded, please report this bug"
                    else
                      match samplesToTime g.st.sampleRatePerChannel toDiscard with
                      | .error m => .inr m
                      | .ok discardedUs =>
                        .inl ({ g.st with extraAudioTime := g.st.extraAudioTime - discardedUs },
                              samplesCount - toDiscard)
            else .inl (g.st, samplesCount)
          match afterDiscard with
          | .inr m => (g, some m)
          | .inl sa =>
            ({ st := sa.1
               count := g.count + sa.2
               writes := g.writes ++ [(g.count, sa.2)] }, none)

/-- The inner `do { decodePacket ... } while (needsMoreDecoding)` loop of
`AudioStream::onGetData`, fueled: decode once, process the frame if one was
produced, and repeat while the decoder asks for more decoding of the same
packet. -/
def decodeLoop : Nat → Packet → GDState → GDResult
  | 0, _, g => .outOfFuel g
  | fuel+1, pkt, g =>
    let dp := decodePacket g.st pkt
    let g := { g with st := dp.1 }
    match dp.2.2 with
    | some q =>
      let pf := processFrame g q.1 q.2.1 q.2.2.1 q.2.2.2
      match pf.2 with
      | some m => .checkFailed m pf.1
      | none => if dp.2.1 then decodeLoop fuel pkt pf.1 else .ok true pf.1
    | none => if dp.2.1 then decodeLoop fuel pkt g else .ok true g

/-- The outer `while` loop of `AudioStream::onGetData`: while the chunk
holds fewer samples than one second's worth
(`stereoChannelCount * m_sampleRatePerChannel`) and a packet can be popped,
run the decode loop on the packet, then unref the packet.  `lastNonNull`
tracks whether the `packet` local is non-null, which is the function's
return value. -/
def getDataLoop : Nat → Bool → GDState → GDResult
  | 0, _, g => .outOfFuel g
  | fuel+1, lastNonNull, g =>
    if g.count < stereoChannelCount * g.st.sampleRatePerChannel then
      let pr := popEncodedData g.st
      match pr.1 with
      | none => .ok false { g with st := pr.2 }
      | some pkt =>
        match decodeLoop fuel pkt { g with st := pr.2 } with
        | .ok _ g =>
          let g := { g with st := { g.st with released := g.st.released ++ [pkt] } }
          getDataLoop fuel true g
        | r => r
    else .ok lastNonNull g

/-- `AudioStream::onGetData(data)`: the chunk starts empty
(`data.sampleCount = 0`); run the packet loop. -/
def onGetData (fuel : Nat) (s : AState) : GDResult :=
  getDataLoop fuel false { st := s, count := 0, writes := [] }

/-! Concrete fixtures used by the scenario theorems below. -/

/-- A 48 kHz source whose stream time base is 1/48000 (so a 20 ms packet
lasts 960 ticks). -/
def info48k : StreamInfo := { tbNum := 1, tbDen := 48000, frNum := 50, frDen := 1, startTime := none }

/-- The `i`-th packet of the 48 kHz / 20 ms-per-packet scenario: it starts
at `20·i` ms and lasts 20 ms. -/
def seekPkt (i : Nat) : Packet := { dts := some (960 * i), duration := 960, size := 1 }

/-- An `AudioStream` whose queue holds the first 80 packets of the
48 kHz / 20 ms scenario. -/
def seekState : AState := { packetList := (List.range 80).map seekPkt, info := info48k }

/-- A stream with millisecond time base whose single queued packet starts
at 1 ms and lasts 20 ms. -/
def overshootState : AState :=
  { packetList := [{ dts := some 1, duration := 20 }], info := { tbNum := 1, tbDen := 1000, frNum := 50, frDen := 1 } }

/-- First packet of the two-packet decode-failure scenario. -/
def failPkt1 : Packet := { dts := some 0, duration := 960 }

/-- Second packet of the two-packet decode-failure scenario. -/
def failPkt2 : Packet := { dts := some 960, duration := 960 }

/-- A stream with two queued packets whose decoder fails every
`avcodec_send_packet`. -/
def decodeFailState : AState :=
  { packetList := [failPkt1, failPkt2]
    decoderScript := [.sendFail, .sendFail, .sendFail] }

/-- An `AudioStream` with a queued packet and a pending seek residue whose
audio sink is currently playing. -/
def playingFlushState : AState :=
  { packetList := [failPkt1], extraAudioTime := 5000, sinkStatus := .Playing }

/-- An `AudioStream` with a queued packet and a pending seek residue whose
audio sink is paused while the stream status is still `Playing`. -/
def pausedFlushState : AState :=
  { packetList := [failPkt1], extraAudioTime := 7, sinkStatus := .Paused, status := .Playing }

/-- A non-passive stream with an empty queue, nothing left at the demuxer,
and a codec that declares internal delay. -/
def popEmptyDelayState : AState := { packetList := [], pendingFeed := [], codecDelay := true }

/-- A non-passive stream with two queued packets. -/
def popNonemptyState : AState := { packetList := [failPkt1, failPkt2] }

/-- Whether a flush call returned normally (its CHECK did not fire). -/
def flushOk : Except String AState → Bool
  | .ok _ => true
  | .error _ => false

/-- The stream state after a flush call: the returned state on success, the
unchanged input state if the CHECK aborted the call. -/
def flushSt (s : AState) : Except String AState → AState
  | .ok s' => s'
  | .error _ => s

/-- The invariant `onGetData` maintains on its chunk state, for stream
sample rate `R`: the fill count stays within the 2-second output buffer
capacity `2 * stereoChannelCount * R`, and every `memcpy` performed so far
wrote within that capacity. -/
def chunkInv (R : Int) (g : GDState) : Prop :=
  g.st.sampleRatePerChannel = R
  ∧ 0 ≤ g.count ∧ g.count ≤ 4 * R - 1
  ∧ ∀ w ∈ g.writes, 0 ≤ w.1 ∧ 0 ≤ w.2 ∧ w.1 + w.2 ≤ 4 * R - 1

/-- A chunk state (sample rate 1, 4 samples already filled) one more frame
away from the 2-second output capacity. -/
def overflowWitnessChunk : GDState :=
  { st := { sampleRatePerChannel := 1 }, count := 4, writes := [] }

/-! Theorems. -/

theorem resampleFrame_fst_max (r : Resampler) (d n sr e : Int) :
    ((resampleFrame r d n sr e).1).maxDstNbSamples =
      (if avRescaleRndUp (d + n) sr sr > r.maxDstNbSamples
       then avRescaleRndUp (d + n) sr sr else r.maxDstNbSamples) := by
  simp only [resampleFrame]
  split <;> split <;> rfl

theorem resampleFrame_max_mono (r : Resampler) (d n sr e : Int) :
    r.maxDstNbSamples ≤ ((resampleFrame r d n sr e).1).maxDstNbSamples := by
  rw [resampleFrame_fst_max]
  split <;> omega

/-- C9: across every sequence of `resampleFrame` calls the output buffer
capacity `m_maxDstNbSamples` is monotonic non-decreasing: a call installs
`max(old capacity, required)`, the buffer is reallocated exactly when the
required count strictly exceeds the old capacity (and then to that strictly
larger capacity, which is appended to the reallocation log), and a fold of
any call sequence never shrinks the capacity. -/
theorem resampler_capacity_monotone :
    (∀ (r : Resampler) (delay nbSamples sampleRate convErr : Int),
        ((resampleFrame r delay nbSamples sampleRate convErr).1).maxDstNbSamples
          = (if avRescaleRndUp (delay + nbSamples) sampleRate sampleRate > r.maxDstNbSamples
             then avRescaleRndUp (delay + nbSamples) sampleRate sampleRate
             else r.maxDstNbSamples)
      ∧ r.maxDstNbSamples ≤ ((resampleFrame r delay nbSamples sampleRate convErr).1).maxDstNbSamples
      ∧ ((resampleFrame r delay nbSamples sampleRate convErr).1).reallocLog
          = (if avRescaleRndUp (delay + nbSamples) sampleRate sampleRate > r.maxDstNbSamples
             then r.reallocLog ++ [avRescaleRndUp (delay + nbSamples) sampleRate sampleRate]
             else r.reallocLog))
  ∧ (∀ (r : Resampler) (calls : List (Int × Int × Int × Int)),
      r.maxDstNbSamples ≤ (resampleSeq r calls).maxDstNbSamples) := by
  constructor
  · intro r d n sr e
    refine ⟨resampleFrame_fst_max r d n sr e, resampleFrame_max_mono r d n sr e, ?_⟩
    simp only [resampleFrame]
    split <;> split <;> rfl
  · intro r calls
    induction calls generalizing r with
    | nil => exact le_refl _
    | cons c cs ih =>
      exact le_trans (resampleFrame_max_mono r c.1 c.2.1 c.2.2.1 c.2.2.2)
        (ih ((resampleFrame r c.1 c.2.1 c.2.2.1 c.2.2.2).1))

/-- C8: within one stream's queue, pop order equals push order:
`pushEncodedData` appends in order, popping a non-empty queue returns the
front and leaves the rest, and any `prependEncodedData`-inserted packet is
returned before every packet queued earlier and not yet popped. -/
theorem queue_fifo_with_prepend :
    (∀ (s : AState) (ps : List Packet),
        (ps.foldl pushEncodedData s).packetList = s.packetList ++ ps)
  ∧ (∀ (s : AState) (p : Packet),
        (prependEncodedData s p).packetList = p :: s.packetList)
  ∧ (∀ (s : AState) (p : Packet) (rest : List Packet),
        s.packetList = p :: rest →
        (popEncodedData s).1 = some p ∧ (popEncodedData s).2.packetList = rest) := by
  refine ⟨?_, ?_, ?_⟩
  · intro s ps
    induction ps generalizing s with
    | nil => simp
    | cons p ps ih => simp [pushEncodedData, ih]
  · intro s p
    rfl
  · intro s p rest h
    simp [popEncodedData, h]

theorem queue_fifo_with_prepend_witness :
    (popEncodedData popNonemptyState).1 = some failPkt1
    ∧ (popEncodedData popNonemptyState).2.packetList = [failPkt2] :=
  queue_fifo_with_prepend.2.2 popNonemptyState failPkt1 [failPkt2] rfl

/-- C10: for every non-negative time and sample rate, `timeToSamples`
returns (without tripping its overflow CHECK) a non-negative sample count
that is a multiple of the stereo channel count: the raw output-domain
sample count rounded down to a whole number of sample-frames, so a discard
offset computed from it can never split an interleaved frame. -/
theorem timeToSamples_whole_frames :
    ∀ (rate timeUs : Int), 0 ≤ rate → 0 ≤ timeUs →
      ∃ n, timeToSamples rate timeUs = Except.ok n
        ∧ 0 ≤ n
        ∧ stereoChannelCount ∣ n
        ∧ n ≤ Int.tdiv (rate * stereoChannelCount * timeUs) 1000000
        ∧ Int.tdiv (rate * stereoChannelCount * timeUs) 1000000 < n + stereoChannelCount := by
  intro rate timeUs hr ht
  have hraw : 0 ≤ Int.tdiv (rate * stereoChannelCount * timeUs) 1000000 :=
    Int.tdiv_nonneg (mul_nonneg (mul_nonneg hr (by norm_num [stereoChannelCount])) ht)
      (by norm_num)
  set raw := Int.tdiv (rate * stereoChannelCount * timeUs) 1000000 with hrawdef
  have hm0 : 0 ≤ Int.tmod raw stereoChannelCount := Int.tmod_nonneg _ hraw
  have hm2 : Int.tmod raw stereoChannelCount < stereoChannelCount :=
    Int.tmod_lt_of_pos raw (by norm_num [stereoChannelCount])
  have hsplit : stereoChannelCount * raw.tdiv stereoChannelCount
      = raw - Int.tmod raw stereoChannelCount := by
    have := Int.tdiv_add_tmod raw stereoChannelCount
    omega
  have htd : 0 ≤ raw.tdiv stereoChannelCount :=
    Int.tdiv_nonneg hraw (by norm_num [stereoChannelCount])
  have hch : stereoChannelCount = 2 := rfl
  rw [hch] at hsplit hm0 hm2 htd
  show ∃ n, (if ¬ raw ≥ 0 then (Except.error "computation overflow" : Except String Int)
      else if Int.tmod raw stereoChannelCount ≠ 0
        then Except.ok (raw - Int.tmod raw stereoChannelCount)
        else Except.ok raw) = Except.ok n
    ∧ 0 ≤ n ∧ stereoChannelCount ∣ n ∧ n ≤ raw ∧ raw < n + stereoChannelCount
  rw [if_neg (by omega : ¬ ¬ raw ≥ 0), hch]
  by_cases hmod : Int.tmod raw 2 = 0
  · refine ⟨raw, ?_, hraw, Int.dvd_of_tmod_eq_zero hmod, le_refl _, by omega⟩
    rw [if_neg (by omega : ¬ Int.tmod raw 2 ≠ 0)]
  · refine ⟨raw - Int.tmod raw 2, ?_, by omega,
      ⟨raw.tdiv 2, by omega⟩, by omega, by omega⟩
    rw [if_pos hmod]

/-- C4: for every `popEncodedData` call on a non-passive stream: if the
queue is empty, exactly one refill request goes to the data source; if it is
still empty afterwards, a single zero-length flush packet (null data,
size 0) is returned when the codec declares internal delay, and no packet
(soft end-of-stream) otherwise; if the queue is (or becomes) non-empty, the
front packet is removed and returned. -/
theorem popEncodedData_spec :
    ∀ (s : AState), s.passive = false →
      ((s.packetList = [] →
          (popEncodedData s).2.refillCalls = s.refillCalls + 1)
      ∧ (s.packetList = [] → s.pendingFeed = [] → s.codecDelay = true →
          (popEncodedData s).1 = some flushPacket ∧ flushPacket.dataIsNull = true
          ∧ flushPacket.size = 0 ∧ (popEncodedData s).2.packetList = [])
      ∧ (s.packetList = [] → s.pendingFeed = [] → s.codecDelay = false →
          (popEncodedData s).1 = none ∧ (popEncodedData s).2.packetList = [])
      ∧ (∀ p ps, s.packetList = [] → s.pendingFeed = p :: ps →
          (popEncodedData s).1 = some p ∧ (popEncodedData s).2.packetList = ps)
      ∧ (∀ p rest, s.packetList = p :: rest →
          (popEncodedData s).1 = some p ∧ (popEncodedData s).2.packetList = rest
          ∧ (popEncodedData s).2.refillCalls = s.refillCalls)) := by
  intro s hp
  refine ⟨?_, ?_, ?_, ?_, ?_⟩
  · intro h
    simp [popEncodedData, requestMoreData, h, hp]
    cases hf : s.pendingFeed with
    | nil => cases hd : s.codecDelay <;> simp [hd]
    | cons p ps => rfl
  · intro h hf hd
    simp [popEncodedData, requestMoreData, h, hp, hf, hd, flushPacket]
  · intro h hf hd
    simp [popEncodedData, requestMoreData, h, hp, hf, hd]
  · intro p ps h hf
    simp [popEncodedData, requestMoreData, h, hp, hf]
  · intro p rest h
    simp [popEncodedData, h]

theorem popEncodedData_spec_witness :
    (popEncodedData popEmptyDelayState).1 = some flushPacket
    ∧ (popEncodedData popEmptyDelayState).2.refillCalls = 1
    ∧ (popEncodedData popNonemptyState).2.refillCalls = 0 := by
  have h1 := popEncodedData_spec popEmptyDelayState rfl
  have h2 := popEncodedData_spec popNonemptyState rfl
  exact ⟨(h1.2.1 rfl rfl rfl).1, h1.1 rfl, (h2.2.2.2.2 failPkt1 [failPkt2] rfl).2.2⟩

/-- C6 counterexample: flushing an `AudioStream` whose audio sink is
`Playing` is a fatal CHECK, not a completed flush with a logged warning —
contradicting the claim that, in every state, the flush still completes. -/
theorem audioFlushBuffers_playing_fatal :
    audioFlushBuffers playingFlushState =
      Except.error "Trying to flush while audio is playing, this will introduce an audio glitch!"
    ∧ flushOk (audioFlushBuffers playingFlushState) = false
    ∧ (flushSt playingFlushState (audioFlushBuffers playingFlushState)).packetList = [failPkt1]
    ∧ (flushSt playingFlushState (audioFlushBuffers playingFlushState)).extraAudioTime = 5000 := by
  refine ⟨rfl, rfl, rfl, rfl⟩

/-- C6 (amended): whenever the audio sink is not `Playing`,
`AudioStream::flushBuffers` completes: it releases every queued packet
exactly once, leaves the queue empty, resets `extraAudioTime` to zero,
resets the decoder's internal buffering, stops the sink, and logs a warning
when the `sfe` stream status is still `Playing`; when the sink is `Playing`
the call instead aborts on the class's own fatal CHECK (see the
counterexample). -/
theorem audioFlushBuffers_not_playing_spec :
    ∀ (s : AState), s.sinkStatus ≠ SinkStatus.Playing →
      flushOk (audioFlushBuffers s) = true
      ∧ (flushSt s (audioFlushBuffers s)).packetList = []
      ∧ (flushSt s (audioFlushBuffers s)).released = s.released ++ s.packetList
      ∧ (flushSt s (audioFlushBuffers s)).extraAudioTime = 0
      ∧ (flushSt s (audioFlushBuffers s)).decoderFlushed = true
      ∧ (flushSt s (audioFlushBuffers s)).sinkStatus = SinkStatus.Stopped
      ∧ (s.status = Status.Playing →
          (flushSt s (audioFlushBuffers s)).flushWhilePlayingWarned = true) := by
  intro s hs
  cases h : s.sinkStatus with
  | Playing => exact absurd h hs
  | Stopped =>
    by_cases hst : s.status = Status.Playing <;>
      simp [audioFlushBuffers, streamFlushBuffers, flushOk, flushSt, h, hst]
  | Paused =>
    by_cases hst : s.status = Status.Playing <;>
      simp [audioFlushBuffers, streamFlushBuffers, flushOk, flushSt, h, hst]

theorem audioFlushBuffers_not_playing_witness :
    flushOk (audioFlushBuffers pausedFlushState) = true
    ∧ (flushSt pausedFlushState (audioFlushBuffers pausedFlushState)).packetList = []
    ∧ (flushSt pausedFlushState (audioFlushBuffers pausedFlushState)).released = [failPkt1]
    ∧ (flushSt pausedFlushState (audioFlushBuffers pausedFlushState)).extraAudioTime = 0
    ∧ (flushSt pausedFlushState (audioFlushBuffers pausedFlushState)).flushWhilePlayingWarned = true := by
  have h := audioFlushBuffers_not_playing_spec pausedFlushState (by decide)
  exact ⟨h.1, h.2.1, h.2.2.1, h.2.2.2.1, h.2.2.2.2.2.2 rfl⟩

/-- C5 (code evaluated at the failing input): with a single queued packet
starting 500 µs past the target, `fastForward` does prepend the packet and
stop, but it logs the inaccuracy warning even though the overshoot
(500 µs) is well under 1 ms — the code's threshold is
`sf::microseconds(1)`, contradicting its own comment and the claimed 1 ms
tolerance. -/
theorem fastForward_overshoot_warns_under_1ms :
    (fastForwardAux 10 500 overshootState).outcome = FFOutcome.ok
    ∧ (fastForwardAux 10 500 overshootState).st.inaccuracyWarned = true
    ∧ (fastForwardAux 10 500 overshootState).st.packetList = overshootState.packetList
    ∧ (fastForwardAux 10 500 overshootState).st.released = []
    ∧ encodedPositionOf overshootState.info { dts := some 1, duration := 20 } - 500 = 500
    ∧ (500 : Int) ≤ 1000 := by
  decide

/-- C2 (code evaluated at the failing input): in the 48 kHz / 20 ms-packet
scenario, seeking to exactly 1.5 s discards 75 packets and prepends the
packet whose interval starts at 1.5 s with `extraAudioTime = 0`, but then
the fatal CHECK `m_extraAudioTime > sf::Time::Zero` ("inconcistency
error") fires instead of `fastForward` returning successfully; seeking to
1.51 s behaves as the claim states (75 packets discarded, 76th packet
prepended, `extraAudioTime = 10 ms`). -/
theorem fastForward_exact_boundary_check_fires :
    (fastForwardAux 100 1500000 seekState).outcome = FFOutcome.checkFailed "inconcistency error"
    ∧ (fastForwardAux 100 1500000 seekState).st.released = (List.range 75).map seekPkt
    ∧ (fastForwardAux 100 1500000 seekState).st.packetList.head? = some (seekPkt 75)
    ∧ (fastForwardAux 100 1500000 seekState).st.extraAudioTime = 0
    ∧ (fastForwardAux 100 1510000 seekState).outcome = FFOutcome.ok
    ∧ (fastForwardAux 100 1510000 seekState).st.extraAudioTime = 10000
    ∧ (fastForwardAux 100 1510000 seekState).st.released = (List.range 75).map seekPkt
    ∧ (fastForwardAux 100 1510000 seekState).st.packetList.head? = some (seekPkt 75) := by
  decide

/-- C3 counterexample: with a decoder that fails `avcodec_send_packet`,
`onGetData` submits the same first packet to the decoder three times in a
row (the do-while retries it, because `decodePacket` reports
`needsMoreDecoding` on failure) and never moves on to the second queued
packet — contradicting "skipped … never submitted to the decoder again". -/
theorem onGetData_retries_failed_packet :
    (onGetData 4 decodeFailState).state.st.submitted = [failPkt1, failPkt1, failPkt1]
    ∧ (onGetData 4 decodeFailState).state.st.packetList = [failPkt2]
    ∧ failPkt1 ≠ failPkt2 := by
  decide

/-- C3 (amended): when decoding a packet fails (the send or the receive
fails), `decodePacket` reports `needsMoreDecoding`, and `onGetData`'s inner
loop immediately resubmits the same packet to the decoder instead of
skipping it; processing moves on only when a decode attempt stops
requesting more decoding. -/
theorem decodeLoop_resubmits_failed_packet :
    ∀ (fuel : Nat) (pkt : Packet) (g : GDState) (o : DecodeOutcome) (rest : List DecodeOutcome),
      g.st.decoderScript = o :: rest →
      (o = DecodeOutcome.sendFail ∨ o = DecodeOutcome.receiveFail) →
      decodeLoop (fuel + 1) pkt g =
        decodeLoop fuel pkt
          { g with st := { g.st with decoderScript := rest
                                     submitted := g.st.submitted ++ [pkt] } } := by
  intro fuel pkt g o rest hs ho
  have hd : decodePacket g.st pkt =
      ({ g.st with decoderScript := rest, submitted := g.st.submitted ++ [pkt] }, true, none) := by
    rcases ho with h | h <;> subst h <;> simp [decodePacket, hs]
  simp [decodeLoop, hd]

theorem decodeLoop_resubmits_failed_packet_witness :
    decodeLoop 1 failPkt1 { st := decodeFailState, count := 0, writes := [] } =
      decodeLoop 0 failPkt1
        { st := { decodeFailState with
                    decoderScript := [DecodeOutcome.sendFail, DecodeOutcome.sendFail]
                    submitted := [failPkt1] }
          count := 0, writes := [] } := by
  have h := decodeLoop_resubmits_failed_packet 0 failPkt1
    { st := decodeFailState, count := 0, writes := [] }
    DecodeOutcome.sendFail [DecodeOutcome.sendFail, DecodeOutcome.sendFail] rfl (Or.inl rfl)
  exact h

theorem timeToSamples_whole_frames_witness :
    ∃ n, timeToSamples 48000 10000 = Except.ok n
      ∧ 0 ≤ n
      ∧ stereoChannelCount ∣ n
      ∧ n ≤ Int.tdiv (48000 * stereoChannelCount * 10000) 1000000
      ∧ Int.tdiv (48000 * stereoChannelCount * 10000) 1000000 < n + stereoChannelCount :=
  timeToSamples_whole_frames 48000 10000 (by norm_num) (by norm_num)

theorem samplesToTime_ok_bound {R m us : Int} (hR : 0 < R) (hm : 0 ≤ m)
    (h : samplesToTime R m = Except.ok us) (hus : us < 2000000) : m ≤ 4 * R - 1 := by
  have hch : stereoChannelCount = 2 := rfl
  have hspc : 0 ≤ Int.tdiv m stereoChannelCount :=
    Int.tdiv_nonneg hm (by norm_num [stereoChannelCount])
  have husdef : us = Int.tdiv (1000000 * Int.tdiv m stereoChannelCount) R := by
    by_cases hc : ¬ Int.tdiv (1000000 * Int.tdiv m stereoChannelCount) R ≥ 0
    · simp [samplesToTime, hc] at h
    · simp [samplesToTime, hc] at h
      omega
  have h1 : Int.tdiv (1000000 * Int.tdiv m stereoChannelCount) R
      = (1000000 * Int.tdiv m stereoChannelCount) / R :=
    Int.tdiv_eq_ediv (by positivity) (le_of_lt hR)
  have h3 : 1000000 * Int.tdiv m stereoChannelCount < 2000000 * R :=
    (Int.ediv_lt_iff_lt_mul hR).mp (by omega)
  have h5 : Int.tdiv m stereoChannelCount = m / 2 := by
    rw [hch]
    exact Int.tdiv_eq_ediv hm (by norm_num)
  have h6 : m / 2 < 2 * R := by omega
  have h7 : m < 2 * R * 2 := (Int.ediv_lt_iff_lt_mul (by norm_num)).mp h6
  omega

theorem timeToSamples_ok_nonneg {R t n : Int} (h : timeToSamples R t = Except.ok n) :
    0 ≤ n := by
  have hch : stereoChannelCount = 2 := rfl
  by_cases hc : ¬ Int.tdiv (R * 2 * t) 1000000 ≥ 0
  · simp [timeToSamples, hch, hc] at h
  · push_neg at hc
    have hm0 : 0 ≤ Int.tmod (Int.tdiv (R * 2 * t) 1000000) 2 := Int.tmod_nonneg _ hc
    have hm2 : Int.tmod (Int.tdiv (R * 2 * t) 1000000) 2 < 2 :=
      Int.tmod_lt_of_pos _ (by norm_num)
    have htd : 0 ≤ Int.tdiv (Int.tdiv (R * 2 * t) 1000000) 2 :=
      Int.tdiv_nonneg hc (by norm_num)
    have hsplit := Int.tdiv_add_tmod (Int.tdiv (R * 2 * t) 1000000) 2
    by_cases hmod : Int.tmod (Int.tdiv (R * 2 * t) 1000000) 2 = 0
    · simp [timeToSamples, hch, hc, hmod] at h
      omega
    · simp [timeToSamples, hch, hc, hmod] at h
      omega

theorem resampleFrame_ok_val {r : Resampler} {d n sr e k : Int}
    (h : (resampleFrame r d n sr e).2 = Except.ok k) :
    k = stereoChannelCount * e ∧ 0 ≤ e := by
  by_cases he : ¬ e ≥ 0
  · simp [resampleFrame, he] at h
  · simp [resampleFrame, he] at h
    push_neg at he
    exact ⟨h.symm, he⟩

theorem popEncodedData_snd_rate (s : AState) :
    (popEncodedData s).2.sampleRatePerChannel = s.sampleRatePerChannel := by
  simp only [popEncodedData]
  set Y := if s.packetList.isEmpty && !s.passive then requestMoreData s else s with hY
  have hYr : Y.sampleRatePerChannel = s.sampleRatePerChannel := by
    rw [hY]
    split <;> rfl
  cases hp : Y.packetList with
  | nil =>
    cases hd : Y.codecDelay <;> simp [hp, hd, hYr]
  | cons a l => simp [hp, hYr]

theorem processFrame_inv {R : Int} (hR : 0 < R) (g : GDState) (d n sr e : Int)
    (h : chunkInv R g) : chunkInv R (processFrame g d n sr e).1 := by
  obtain ⟨hrate, h0, h1, hw⟩ := h
  simp only [processFrame, hrate]
  split
  next m heq => exact ⟨by simp [hrate], h0, h1, hw⟩
  next k heq =>
    obtain ⟨hk2e, he⟩ := resampleFrame_ok_val heq
    split
    next hk => exact ⟨by simp [hrate], h0, h1, hw⟩
    next hk =>
      push_neg at hk
      split
      next m heq2 => exact ⟨by simp [hrate], h0, h1, hw⟩
      next us heq2 =>
        split
        next hus => exact ⟨by simp [hrate], h0, h1, hw⟩
        next hus =>
          push_neg at hus
          have hbound : g.count + k ≤ 4 * R - 1 :=
            samplesToTime_ok_bound hR (by omega) heq2 hus
          have concl : ∀ (st' : AState) (adj : Int), st'.sampleRatePerChannel = R →
              0 ≤ adj → adj ≤ k →
              chunkInv R ⟨st', g.count + adj, g.writes ++ [(g.count, adj)]⟩ := by
            intro st' adj hr' ha1 ha2
            refine ⟨hr', ?_, ?_, ?_⟩
            · show 0 ≤ g.count + adj
              omega
            · show g.count + adj ≤ 4 * R - 1
              omega
            intro w hw'
            rcases List.mem_append.mp hw' with hmem | hmem
            · exact hw w hmem
            · have hweq : w = (g.count, adj) := by simpa using hmem
              subst hweq
              exact ⟨h0, ha1, by omega⟩
          split
          next m heq3 => exact ⟨by simp [hrate], h0, h1, hw⟩
          next sa heq3 =>
            by_cases hex : g.st.extraAudioTime > 0
            · rw [if_pos hex] at heq3
              rcases htts : timeToSamples R g.st.extraAudioTime with m | d0
              · rw [htts] at heq3
                simp at heq3
              · rw [htts] at heq3
                simp only [] at heq3
                have hd0 := timeToSamples_ok_nonneg htts
                by_cases hgt : d0 > k
                · rw [if_pos hgt] at heq3
                  by_cases hsm : k < stereoChannelCount ∧ k > 0
                  · rw [if_pos hsm] at heq3
                    have hsa : sa = ({ g.st with resampler := (resampleFrame g.st.resampler d n sr e).1, extraAudioTime := 0 }, k) := by
                      simpa [hrate] using heq3.symm
                    subst hsa
                    exact concl _ _ (by simp [hrate]) (by omega) (le_refl k)
                  · rw [if_neg hsm] at heq3
                    rcases hb : samplesToTime R k with m | blockUs
                    · rw [hb] at heq3
                      simp at heq3
                    · rw [hb] at heq3
                      simp only [] at heq3
                      split at heq3
                      next hratio => simp at heq3
                      next hratio =>
                        have hsa : sa = ({ g.st with resampler := (resampleFrame g.st.resampler d n sr e).1, extraAudioTime := g.st.extraAudioTime - blockUs }, k - k) := by
                          simpa [hrate] using heq3.symm
                        subst hsa
                        exact concl _ _ (by simp [hrate]) (by omega) (by omega)
                · rw [if_neg hgt] at heq3
                  by_cases hsm : d0 < stereoChannelCount ∧ k > 0
                  · rw [if_pos hsm] at heq3
                    have hsa : sa = ({ g.st with resampler := (resampleFrame g.st.resampler d n sr e).1, extraAudioTime := 0 }, k) := by
                      simpa [hrate] using heq3.symm
                    subst hsa
                    exact concl _ _ (by simp [hrate]) (by omega) (le_refl k)
                  · rw [if_neg hsm] at heq3
                    rcases hb : samplesToTime R k with m | blockUs
                    · rw [hb] at heq3
                      simp at heq3
                    · rw [hb] at heq3
                      simp only [] at heq3
                      split at heq3
                      next hratio => simp at heq3
                      next hratio =>
                        rcases hc : samplesToTime R d0 with m | discUs
                        · rw [hc] at heq3
                          simp at heq3
                        · rw [hc] at heq3
                          simp only [] at heq3
                          have hsa : sa = ({ g.st with resampler := (resampleFrame g.st.resampler d n sr e).1, extraAudioTime := g.st.extraAudioTime - discUs }, k - d0) := by
                            simpa [hrate] using heq3.symm
                          subst hsa
                          exact concl _ _ (by simp [hrate]) (by omega) (by omega)
            · rw [if_neg hex] at heq3
              have hsa : sa = ({ g.st with resampler := (resampleFrame g.st.resampler d n sr e).1 }, k) := by
                simpa [hrate] using heq3.symm
              subst hsa
              exact concl _ _ (by simp [hrate]) (by omega) (le_refl k)

theorem decodePacket_fst_rate (s : AState) (pkt : Packet) :
    (decodePacket s pkt).1.sampleRatePerChannel = s.sampleRatePerChannel := by
  simp only [decodePacket]
  cases s.decoderScript with
  | nil => rfl
  | cons o rest => cases o <;> rfl

theorem decodeLoop_inv {R : Int} (hR : 0 < R) :
    ∀ (fuel : Nat) (pkt : Packet) (g : GDState),
      chunkInv R g → chunkInv R (decodeLoop fuel pkt g).state := by
  intro fuel
  induction fuel with
  | zero => intro pkt g h; exact h
  | succ f ih =>
    intro pkt g h
    have hdp : chunkInv R { g with st := (decodePacket g.st pkt).1 } := by
      obtain ⟨h1, h2, h3, h4⟩ := h
      exact ⟨by rw [decodePacket_fst_rate]; exact h1, h2, h3, h4⟩
    simp only [decodeLoop]
    rcases hfr : (decodePacket g.st pkt).2.2 with _ | q
    · simp only [hfr]
      split
      · exact ih pkt _ hdp
      · exact hdp
    · simp only [hfr]
      have hpf := processFrame_inv hR _ q.1 q.2.1 q.2.2.1 q.2.2.2 hdp
      rcases hpf2 : (processFrame { g with st := (decodePacket g.st pkt).1 }
          q.1 q.2.1 q.2.2.1 q.2.2.2).2 with _ | m
      · simp only [hpf2]
        split
        · exact ih pkt _ hpf
        · exact hpf
      · simp only [hpf2]
        exact hpf

theorem getDataLoop_inv {R : Int} (hR : 0 < R) :
    ∀ (fuel : Nat) (b : Bool) (g : GDState),
      chunkInv R g → chunkInv R (getDataLoop fuel b g).state := by
  intro fuel
  induction fuel with
  | zero => intro b g h; exact h
  | succ f ih =>
    intro b g h
    simp only [getDataLoop]
    split
    · have hg1 : chunkInv R { g with st := (popEncodedData g.st).2 } := by
        obtain ⟨h1, h2, h3, h4⟩ := h
        exact ⟨by rw [popEncodedData_snd_rate]; exact h1, h2, h3, h4⟩
      rcases hp : (popEncodedData g.st).1 with _ | pkt
      · simp only [hp]
        exact hg1
      · simp only [hp]
        have hdl := decodeLoop_inv hR f pkt { g with st := (popEncodedData g.st).2 } hg1
        cases hr : decodeLoop f pkt { g with st := (popEncodedData g.st).2 } with
        | ok hp2 g2 =>
          rw [hr] at hdl
          refine ih true _ ?_
          obtain ⟨h1, h2, h3, h4⟩ := hdl
          exact ⟨h1, h2, h3, h4⟩
        | checkFailed m g2 =>
          rw [hr] at hdl
          exact hdl
        | outOfFuel g2 =>
          rw [hr] at hdl
          exact hdl
    · exact h

theorem onGetData_inv {R : Int} (hR : 0 < R) (fuel : Nat) (s : AState)
    (hrate : s.sampleRatePerChannel = R) :
    chunkInv R (onGetData fuel s).state := by
  refine getDataLoop_inv hR fuel false ⟨s, 0, []⟩ ⟨hrate, le_refl 0, ?_, ?_⟩
  · show (0 : Int) ≤ 4 * R - 1
    omega
  · intro w hw
    simp at hw

/-- C7: in every `onGetData` run the total number of samples written into
the chunk never exceeds the fixed 2-second output buffer capacity
(2 x sample rate x stereo channel count), and every individual `memcpy`
stays within that capacity; moreover a resampled block that would reach the
2-second mark trips the fatal "Going to overflow!!" CHECK and nothing is
written (no silent overflow). -/
theorem onGetData_never_overflows :
    (∀ (fuel : Nat) (s : AState), 0 < s.sampleRatePerChannel →
      (onGetData fuel s).state.count ≤ 2 * (stereoChannelCount * s.sampleRatePerChannel)
      ∧ 0 ≤ (onGetData fuel s).state.count
      ∧ ∀ w ∈ (onGetData fuel s).state.writes,
          0 ≤ w.1 ∧ 0 ≤ w.2
          ∧ w.1 + w.2 ≤ 2 * (stereoChannelCount * s.sampleRatePerChannel))
  ∧ (∀ (g : GDState) (d n sr e us : Int),
      0 < e →
      samplesToTime g.st.sampleRatePerChannel (g.count + stereoChannelCount * e) = Except.ok us →
      ¬ us < 2000000 →
      (processFrame g d n sr e).2 = some "AudioStream::onGetData() - Going to overflow!!"
      ∧ (processFrame g d n sr e).1.count = g.count
      ∧ (processFrame g d n sr e).1.writes = g.writes) := by
  have hch : stereoChannelCount = 2 := rfl
  constructor
  · intro fuel s hR
    obtain ⟨h1, h2, h3, h4⟩ := onGetData_inv hR fuel s rfl
    rw [hch]
    refine ⟨by omega, h2, ?_⟩
    intro w hw
    obtain ⟨hw1, hw2, hw3⟩ := h4 w hw
    exact ⟨hw1, hw2, by omega⟩
  · intro g d n sr e us he hst hus
    have hres : (resampleFrame g.st.resampler d n sr e).2
        = Except.ok (stereoChannelCount * e) := by
      by_cases hc : ¬ e ≥ 0
      · omega
      · simp [resampleFrame, hc]
    have hkpos : ¬ ¬ stereoChannelCount * e > 0 := by
      rw [hch]
      omega
    simp only [processFrame, hres]
    rw [if_neg hkpos]
    simp only [hst]
    rw [if_pos hus]
    exact ⟨rfl, rfl, rfl⟩

theorem fastForwardAux_stop_step (fuel : Nat) (target : Int) (s : AState)
    (p : Packet) (rest : List Packet)
    (h : s.packetList = p :: rest)
    (hid : p.streamIndex = s.streamID)
    (hlt : encodedPositionOf s.info p < target)
    (hgt : target < encodedPositionOf s.info p + packetDurationUs s.info p) :
    fastForwardAux (fuel + 1) target s =
      ⟨.ok, { s with extraAudioTime := target - encodedPositionOf s.info p }⟩ := by
  have h1 : ¬ encodedPositionOf s.info p > target := by omega
  have h2 : encodedPositionOf s.info p + packetDurationUs s.info p > target := by omega
  have h3 : ¬ target ≤ encodedPositionOf s.info p := by omega
  have h4 : ¬ packetDurationUs s.info p + encodedPositionOf s.info p < target := by omega
  have h5 : ¬ encodedPositionOf s.info p + packetDurationUs s.info p ≤ target := by omega
  simp [fastForwardAux, computeEncodedPosition, popEncodedData, packetDuration,
        prependEncodedData, h, hid, h1, h2, h3, h4, h5]

theorem fastForwardAux_discard_step (fuel : Nat) (target : Int) (s : AState)
    (p : Packet) (rest : List Packet)
    (h : s.packetList = p :: rest)
    (hid : p.streamIndex = s.streamID)
    (hd0 : 0 ≤ packetDurationUs s.info p)
    (hle : encodedPositionOf s.info p + packetDurationUs s.info p ≤ target) :
    fastForwardAux (fuel + 1) target s =
      fastForwardAux fuel target { s with packetList := rest, released := s.released ++ [p] } := by
  have h1 : ¬ encodedPositionOf s.info p > target := by omega
  have h2 : ¬ encodedPositionOf s.info p + packetDurationUs s.info p > target := by omega
  simp [fastForwardAux, computeEncodedPosition, popEncodedData, packetDuration,
        prependEncodedData, h, hid, h1, h2, hle]

/-- C1: for a seek to a target strictly inside a queued packet's interval
`[S, S+D)` with every earlier packet's interval ending at or before the
target, `fastForward` succeeds, every earlier packet is discarded and freed
exactly once, the mid-target packet is prepended back to the front of the
queue, and `extraAudioTime = target - S` with `0 < extraAudioTime ≤ D`. -/
theorem fastForward_mid_packet :
    ∀ (earlier : List Packet) (P : Packet) (rest : List Packet) (target : Int)
      (s : AState) (fuel : Nat),
      s.packetList = earlier ++ P :: rest →
      (∀ q ∈ earlier, q.streamIndex = s.streamID) →
      P.streamIndex = s.streamID →
      (∀ q ∈ earlier, 0 ≤ packetDurationUs s.info q) →
      (∀ q ∈ earlier, encodedPositionOf s.info q + packetDurationUs s.info q ≤ target) →
      encodedPositionOf s.info P < target →
      target < encodedPositionOf s.info P + packetDurationUs s.info P →
      earlier.length < fuel →
      (fastForwardAux fuel target s).outcome = FFOutcome.ok
      ∧ (fastForwardAux fuel target s).st.packetList = P :: rest
      ∧ (fastForwardAux fuel target s).st.released = s.released ++ earlier
      ∧ (fastForwardAux fuel target s).st.extraAudioTime = target - encodedPositionOf s.info P
      ∧ 0 < (fastForwardAux fuel target s).st.extraAudioTime
      ∧ (fastForwardAux fuel target s).st.extraAudioTime ≤ packetDurationUs s.info P := by
  intro earlier
  induction earlier with
  | nil =>
    intro P rest target s fuel h hE hid hD hT hlt hgt hfuel
    cases fuel with
    | zero => omega
    | succ f =>
      rw [fastForwardAux_stop_step f target s P rest (by simpa using h) hid hlt hgt]
      refine ⟨rfl, by simpa using h, by simp, rfl, ?_, ?_⟩
      · show 0 < target - encodedPositionOf s.info P
        omega
      · show target - encodedPositionOf s.info P ≤ packetDurationUs s.info P
        omega
  | cons q qs ih =>
    intro P rest target s fuel h hE hid hD hT hlt hgt hfuel
    cases fuel with
    | zero => simp at hfuel
    | succ f =>
      rw [fastForwardAux_discard_step f target s q (qs ++ P :: rest) (by simpa using h)
            (hE q (by simp)) (hD q (by simp)) (hT q (by simp))]
      have hrec := ih P rest target
        { s with packetList := qs ++ P :: rest, released := s.released ++ [q] } f
        rfl (fun x hx => hE x (by simp [hx])) hid (fun x hx => hD x (by simp [hx]))
        (fun x hx => hT x (by simp [hx])) hlt hgt
        (by simp only [List.length_cons] at hfuel; omega)
      refine ⟨hrec.1, hrec.2.1, ?_, hrec.2.2.2.1, hrec.2.2.2.2.1, hrec.2.2.2.2.2⟩
      rw [hrec.2.2.1]
      simp

theorem fastForward_mid_packet_witness :
    (fastForwardAux 80 1510000 seekState).outcome = FFOutcome.ok
    ∧ (fastForwardAux 80 1510000 seekState).st.released = seekState.released ++ (List.range 75).map seekPkt
    ∧ (fastForwardAux 80 1510000 seekState).st.extraAudioTime
        = 1510000 - encodedPositionOf seekState.info (seekPkt 75)
    ∧ 0 < (fastForwardAux 80 1510000 seekState).st.extraAudioTime
    ∧ (fastForwardAux 80 1510000 seekState).st.extraAudioTime
        ≤ packetDurationUs seekState.info (seekPkt 75) := by
  have h := fastForward_mid_packet ((List.range 75).map seekPkt) (seekPkt 75)
      ((List.range 4).map (fun i => seekPkt (76 + i))) 1510000 seekState 80
      (by decide) (by decide) (by decide) (by decide) (by decide) (by decide) (by decide)
      (by decide)
  exact ⟨h.1, h.2.2.1, h.2.2.2.1, h.2.2.2.2.1, h.2.2.2.2.2⟩

theorem onGetData_never_overflows_witness :
    (onGetData 1 popNonemptyState).state.count
      ≤ 2 * (stereoChannelCount * popNonemptyState.sampleRatePerChannel)
    ∧ (processFrame overflowWitnessChunk 0 0 0 2).2
      = some "AudioStream::onGetData() - Going to overflow!!" := by
  have h := onGetData_never_overflows
  exact ⟨(h.1 1 popNonemptyState (by decide)).1,
    (h.2 overflowWitnessChunk 0 0 0 2 4000000 (by norm_num) rfl (by norm_num)).1⟩

end SfeMovie
